import Mathlib

/-!
Verification of `issh.py`, an interactive terminal picker for SSH host aliases.

The development shallowly embeds the program's pure core:
* the config loader `ISSH.load_ssh_hosts` (line-oriented parsing plus sort),
* the startup checks in `ISSH.__init__` / `ISSH.check_if_ssh_config_exists`,
* the key dispatch and selection-index updates of `ISSH.input_loop`,
* the effect sequences of `ISSH.connect_to_host` and `ISSH.launch_editor`.

File contents are modelled as `Option (List String)`: `none` stands for a path
that does not exist (so `open` raises `OSError`), `some lines` for the list of
lines `readlines` would produce. Python exceptions are modelled with
`Except` / an explicit error component.
-/

namespace Issh

/-- The characters Python's `str.rstrip()` / `str.lstrip()` / `str.split()`
treat as whitespace: space, tab, newline, carriage return, vertical tab,
form feed. -/
def isPySpace (c : Char) : Bool :=
  c == ' ' || c == '\t' || c == '\n' || c == '\r' || c == '\x0b' || c == '\x0c'

/-- Python `line.rstrip()`: drop trailing whitespace. -/
def rstrip (l : List Char) : List Char :=
  (l.reverse.dropWhile isPySpace).reverse

/-- Python `line.lstrip()`: drop leading whitespace. -/
def lstrip (l : List Char) : List Char :=
  l.dropWhile isPySpace

/-- Worker for `pySplit`; `acc` holds the (reversed) current token. -/
def splitAux : List Char → List Char → List (List Char)
  | [], acc => if acc.isEmpty then [] else [acc.reverse]
  | c :: cs, acc =>
    if isPySpace c then
      (if acc.isEmpty then splitAux cs [] else acc.reverse :: splitAux cs [])
    else splitAux cs (c :: acc)

/-- Python `line.split()` with no argument: split on runs of whitespace,
producing no empty tokens. -/
def pySplit (l : List Char) : List (List Char) :=
  splitAux l []

/-- The skip condition of `load_ssh_hosts` (issh.py line 46), applied to the
already-rstripped line:
`len(line) == 0 or line[0] == ' ' or line[0] == '\t' or line.lstrip()[0] == '#'
or line.find("*") > -1`. (When the length test fails the line has a
non-whitespace character, so `line.lstrip()` is never empty where Python
evaluates it; `head?` makes the Lean side total.) -/
def skipLine (line : List Char) : Bool :=
  line.isEmpty || line.head? == some ' ' || line.head? == some '\t'
    || (lstrip line).head? == some '#' || line.contains '*'

/-- The per-line step of `load_ssh_hosts` (issh.py lines 44-51): rstrip the raw
line, skip it per line 46, otherwise take `line.split()[1]`; an out-of-range
index (`IndexError`) is swallowed and the line skipped. -/
def hostOfLine (raw : List Char) : Option String :=
  if skipLine (rstrip raw) then none
  else ((pySplit (rstrip raw)).get? 1).map String.mk

/-- Python's `<` on strings: lexicographic comparison of code points. -/
def lexLt : List Char → List Char → Bool
  | _, [] => false
  | [], _ :: _ => true
  | a :: as, b :: bs =>
    if a.toNat < b.toNat then true
    else if b.toNat < a.toNat then false
    else lexLt as bs

/-- Python's `<=` on strings (a total order): `a <= b` iff `not (b < a)`. -/
def pyLe (a b : String) : Bool :=
  !(lexLt b.toList a.toList)

/-- `pyLe` as a relation, used for sorting. -/
def pyLeP (a b : String) : Prop :=
  pyLe a b = true

instance : DecidableRel pyLeP :=
  fun a b => inferInstanceAs (Decidable (pyLe a b = true))

/-- The list of aliases `load_ssh_hosts` appends, in file order
(before the final `self.hosts.sort()`). -/
def parseHosts (lines : List String) : List String :=
  lines.filterMap (fun s => hostOfLine s.toList)

/-- `load_ssh_hosts` applied to readable file contents: parse every line, then
`self.hosts.sort()` (Python's sort by `<`; since `pyLe` is antisymmetric the
sorted result is unique, so insertion sort computes it). -/
def loadHosts (lines : List String) : List String :=
  List.insertionSort pyLeP (parseHosts lines)

/-! Order-theoretic facts about `lexLt` / `pyLe`, needed so that Mathlib's
insertion-sort lemmas apply. -/

theorem lexLt_asymm : ∀ (a b : List Char), lexLt a b = true → lexLt b a = false := by
  intro a
  induction a with
  | nil =>
    intro b h
    cases b with
    | nil => simp [lexLt] at h
    | cons y ys => simp [lexLt]
  | cons x xs ih =>
    intro b h
    cases b with
    | nil => simp [lexLt] at h
    | cons y ys =>
      simp only [lexLt] at h ⊢
      split_ifs at h ⊢ with h1 h2 h3
      all_goals simp_all
      all_goals omega

theorem lexLt_le_trans :
    ∀ (a b c : List Char), lexLt b a = false → lexLt c b = false → lexLt c a = false := by
  intro a
  induction a with
  | nil =>
    intro b c _ _
    cases c <;> simp [lexLt]
  | cons x xs ih =>
    intro b c h1 h2
    cases b with
    | nil => simp [lexLt] at h1
    | cons y ys =>
      cases c with
      | nil => simp [lexLt] at h2
      | cons z zs =>
        simp only [lexLt] at h1 h2 ⊢
        split_ifs at h1 h2 ⊢ with hA hB hC hD hE hF
        all_goals simp_all
        all_goals try omega
        exact ih ys zs h1 h2

theorem pyLe_total (a b : String) : pyLe a b = true ∨ pyLe b a = true := by
  unfold pyLe
  cases h : lexLt b.toList a.toList with
  | false => left; rfl
  | true => right; rw [lexLt_asymm _ _ h]; rfl

theorem pyLe_trans (a b c : String) (hab : pyLe a b = true) (hbc : pyLe b c = true) :
    pyLe a c = true := by
  unfold pyLe at hab hbc ⊢
  simp only [Bool.not_eq_true'] at hab hbc ⊢
  exact lexLt_le_trans a.toList b.toList c.toList hab hbc

instance : IsTotal String pyLeP :=
  ⟨pyLe_total⟩

instance : IsTrans String pyLeP :=
  ⟨pyLe_trans⟩

/-! The stateful side: errors, the loader as a method, startup, and the
input-loop transitions. -/

/-- The exceptions the program can raise around config loading and process
launching: `SSHConfigError` (issh.py lines 11-13) and the built-in `OSError`
family (`FileNotFoundError` from `open` or `subprocess.run`). Messages are
incidental and omitted. -/
inductive PyError where
  | sshConfigError
  | osError
deriving DecidableEq

/-- Embeds the method `ISSH.load_ssh_hosts` (issh.py lines 41-52) as a
function of the previous value of `self.hosts` and the file contents
(`none` when the path cannot be opened). Line 42, `self.hosts = list()`,
runs before the `open` on line 43, so when `open` raises, the method leaves
the cleared (empty) list behind and the exception propagates. -/
def load_ssh_hosts (prev : List String) (file : Option (List String)) :
    List String × Option PyError :=
  match prev, file with
  | _, none => ([], some .osError)
  | _, some lines => (loadHosts lines, none)

/-- The controller's mutable state: `self.hosts` and `self.active_choice`.
The index is an `Int` because Python's is an unbounded integer. -/
structure IsshState where
  hosts : List String
  active_choice : Int
deriving DecidableEq

/-- Embeds the startup sequence of `ISSH.__init__` (issh.py lines 22-28):
`check_if_ssh_config_exists` raises `SSHConfigError` when the path does not
exist (lines 37-39); then `load_ssh_hosts`; then an empty result raises
`SSHConfigError` (lines 26-27); otherwise `active_choice = 0`. -/
def issh_init (file : Option (List String)) : Except PyError IsshState :=
  match file with
  | none => .error .sshConfigError
  | some lines =>
    if (loadHosts lines).isEmpty then .error .sshConfigError
    else .ok ⟨loadHosts lines, 0⟩

/-- The `R` branch of `ISSH.input_loop` (issh.py lines 96-97) and the reload
at the end of `ISSH.launch_editor` (line 133): the sole statement is
`self.load_ssh_hosts()` — `self.active_choice` is not touched. -/
def reload_step (st : IsshState) (file : Option (List String)) :
    IsshState × Option PyError :=
  ({ hosts := (load_ssh_hosts st.hosts file).1, active_choice := st.active_choice },
   (load_ssh_hosts st.hosts file).2)

/-! Key classification and dispatch (issh.py lines 77-99). -/

def KEY_DOWN : Int := 258
def KEY_UP : Int := 259
def KEY_RIGHT : Int := 261
def ASCII_LF : Int := 10
def ASCII_ESC : Int := 27

/-- Line 78: `char = chr(char_ord) if 0 <= char_ord < 256 else ''`.
The empty string is modelled as `none`. -/
def chr (char_ord : Int) : Option Char :=
  if 0 ≤ char_ord ∧ char_ord < 256 then some (Char.ofNat char_ord.toNat) else none

/-- Python `char.upper() == target` for a single-character-or-empty `char`.
For code points below 256, `str.upper` agrees with `Char.toUpper` on whether
the result equals an ASCII letter. -/
def upperEq (c : Option Char) (target : Char) : Bool :=
  c.map Char.toUpper == some target

/-- The action each branch of the `if`/`elif` chain performs. -/
inductive Action where
  | selectNext
  | selectPrev
  | connect
  | quit
  | moveTop
  | moveLast
  | edit
  | reload
  | help
  | noop
deriving DecidableEq

/-- Embeds the dispatch chain of `ISSH.input_loop` (issh.py lines 80-99),
branch by branch and in source order. -/
def dispatch (char_ord : Int) : Action :=
  if char_ord == KEY_DOWN || upperEq (chr char_ord) 'J' then .selectNext
  else if char_ord == KEY_UP || upperEq (chr char_ord) 'K' then .selectPrev
  else if char_ord == KEY_RIGHT || char_ord == ASCII_LF || upperEq (chr char_ord) 'L' then .connect
  else if char_ord == ASCII_ESC || upperEq (chr char_ord) 'Q' then .quit
  else if chr char_ord == some 'g' then .moveTop
  else if chr char_ord == some 'G' then .moveLast
  else if upperEq (chr char_ord) 'E' then .edit
  else if upperEq (chr char_ord) 'R' then .reload
  else if upperEq (chr char_ord) 'H' then .help
  else .noop

/-- The four pure navigation actions of the claim: down/j, up/k, g, G. -/
inductive NavKey where
  | down
  | up
  | top
  | bottom
deriving DecidableEq

/-- Embeds the selection-index updates of `ISSH.input_loop`
(issh.py lines 80-85 and 90-93):
down increments when `active_choice < len(self.hosts) - 1`, up decrements
when `active_choice > 0`, `g` sets 0, `G` sets `len(self.hosts) - 1`. -/
def navStep (hosts : List String) (idx : Int) : NavKey → Int
  | .down => if idx < (hosts.length : Int) - 1 then idx + 1 else idx
  | .up => if idx > 0 then idx - 1 else idx
  | .top => 0
  | .bottom => (hosts.length : Int) - 1

/-- A finite sequence of navigation actions, applied in order. -/
def navRun (hosts : List String) (idx : Int) (ks : List NavKey) : Int :=
  ks.foldl (navStep hosts) idx

/-! Terminal hand-off and subprocess effects. -/

/-- Observable effects of the connect/edit methods, in execution order. -/
inductive Event where
  | cleanupCurses
  | reinitCurses
  | runProcess (cmd : List String)
  | reloadHosts
deriving DecidableEq

/-- Embeds `ISSH.connect_to_host` (issh.py lines 101-105) as its statement
sequence: `cleanup_curses()`, `subprocess.run(["ssh", host])`,
`reinit_curses()`. -/
def connect_to_host_trace (host : String) : List Event :=
  [.cleanupCurses, .runProcess ["ssh", host], .reinitCurses]

/-- Embeds `ISSH.launch_editor` (issh.py lines 122-133) as its statement
sequence: `subprocess.run(shlex.split(editor) + [self.ssh_config_path])`
then `self.load_ssh_hosts()`. The method body contains no `cleanup_curses`
or `reinit_curses` call. `editorCmd` stands for the already-resolved,
already-tokenized editor command (lines 123-131, environment glue). -/
def launch_editor_trace (editorCmd : List String) (configPath : String) : List Event :=
  [.runProcess (editorCmd ++ [configPath]), .reloadHosts]

/-- The possible fates of a spawned child process. -/
inductive RunOutcome where
  | exited (code : Int)
  | signaled (sig : Nat)
  | launchFailure
deriving DecidableEq

/-- Models Python `subprocess.run(cmd)` with the default `check=False`: a
process that starts returns a `CompletedProcess` whatever its exit status
(a negative `returncode` when killed by a signal) and raises nothing; a
command that cannot be started at all raises `OSError`
(`FileNotFoundError`). -/
def subprocess_run (o : RunOutcome) : Except PyError Int :=
  match o with
  | .exited code => .ok code
  | .signaled sig => .ok (-(sig : Int))
  | .launchFailure => .error .osError

/-- `ISSH.connect_to_host` (issh.py lines 101-105) as a fallible call: there
is no try/except around `subprocess.run`, so a raised `OSError` propagates
(and `reinit_curses` and the menu loop are never reached); otherwise the
method returns and `input_loop` continues. -/
def connect_to_host (o : RunOutcome) : Except PyError Unit :=
  match subprocess_run o with
  | .ok _ => .ok ()
  | .error e => .error e

/-- `ISSH.launch_editor` (issh.py lines 122-133) as a fallible call: no
try/except around `subprocess.run`, so a launch failure propagates;
otherwise `load_ssh_hosts()` runs and the method returns the reloaded list. -/
def launch_editor (o : RunOutcome) (lines : List String) : Except PyError (List String) :=
  match subprocess_run o with
  | .ok _ => .ok (loadHosts lines)
  | .error e => .error e

/-! Helper lemmas about the parser, shared by several theorems below. -/

/-- The claim-side description of a usable line: non-blank after stripping
trailing whitespace, not indented, whose first non-whitespace character is
not `#`, containing no `*`, with at least two whitespace-delimited tokens. -/
def goodLine (s : String) : Bool :=
  !(rstrip s.toList).isEmpty
    && !((rstrip s.toList).head? == some ' ')
    && !((rstrip s.toList).head? == some '\t')
    && !((lstrip (rstrip s.toList)).head? == some '#')
    && !(rstrip s.toList).contains '*'
    && decide (2 ≤ (pySplit (rstrip s.toList)).length)

/-- The second whitespace-delimited token of the stripped line — what
`line.split()[1]` evaluates to on a surviving line. -/
def secondToken (s : String) : String :=
  String.mk (((pySplit (rstrip s.toList)).get? 1).getD [])

theorem splitAux_subset :
    ∀ (cs acc t : List Char), t ∈ splitAux cs acc → ∀ c ∈ t, c ∈ cs ∨ c ∈ acc := by
  intro cs
  induction cs with
  | nil =>
    intro acc t ht c hc
    simp only [splitAux] at ht
    split at ht
    · simp at ht
    · simp only [List.mem_singleton] at ht
      subst ht
      exact Or.inr (List.mem_reverse.mp hc)
  | cons c0 cs ih =>
    intro acc t ht c hc
    simp only [splitAux] at ht
    split at ht
    · split at ht
      · rcases ih [] t ht c hc with h | h
        · exact Or.inl (List.mem_cons_of_mem _ h)
        · simp at h
      · rcases List.mem_cons.mp ht with h | h
        · subst h
          exact Or.inr (List.mem_reverse.mp hc)
        · rcases ih [] t h c hc with h2 | h2
          · exact Or.inl (List.mem_cons_of_mem _ h2)
          · simp at h2
    · rcases ih (c0 :: acc) t ht c hc with h | h
      · exact Or.inl (List.mem_cons_of_mem _ h)
      · rcases List.mem_cons.mp h with h2 | h2
        · exact Or.inl (h2 ▸ List.mem_cons_self _ _)
        · exact Or.inr h2

theorem mem_pySplit_subset {l t : List Char} (ht : t ∈ pySplit l) {c : Char} (hc : c ∈ t) :
    c ∈ l := by
  rcases splitAux_subset l [] t ht c hc with h | h
  · exact h
  · simp at h

theorem mem_rstrip {l : List Char} {c : Char} (h : c ∈ rstrip l) : c ∈ l := by
  unfold rstrip at h
  exact List.mem_reverse.mp ((List.dropWhile_sublist _).mem (List.mem_reverse.mp h))

theorem hostOfLine_of_goodLine {s : String} (h : goodLine s = true) :
    hostOfLine s.toList = some (secondToken s) := by
  unfold goodLine at h
  simp only [Bool.and_eq_true, Bool.not_eq_true', decide_eq_true_eq] at h
  obtain ⟨⟨⟨⟨⟨h1, h2⟩, h3⟩, h4⟩, h5⟩, h6⟩ := h
  have hskip : skipLine (rstrip s.toList) = false := by
    unfold skipLine
    simp only [h1, h2, h3, h4, h5, Bool.or_self, Bool.or_false]
  cases hget : (pySplit (rstrip s.toList)).get? 1 with
  | none =>
    have := List.get?_eq_none.mp hget
    omega
  | some t =>
    unfold hostOfLine secondToken
    rw [hskip, hget]
    rfl

theorem secondToken_mem_loadHosts {lines : List String} {s : String}
    (hs : s ∈ lines) (hg : goodLine s = true) : secondToken s ∈ loadHosts lines := by
  unfold loadHosts
  refine (List.mem_insertionSort _).mpr ?_
  exact List.mem_filterMap.mpr ⟨s, hs, hostOfLine_of_goodLine hg⟩

theorem no_star_of_mem_loadHosts {lines : List String} {h : String}
    (hm : h ∈ loadHosts lines) : ('*' : Char) ∉ h.toList := by
  unfold loadHosts at hm
  obtain ⟨s, _, hsome⟩ := List.mem_filterMap.mp ((List.mem_insertionSort _).mp hm)
  unfold hostOfLine at hsome
  by_cases hsk : skipLine (rstrip s.toList) = true
  · rw [if_pos hsk] at hsome
    exact absurd hsome (by simp)
  · rw [if_neg hsk] at hsome
    cases hget : (pySplit (rstrip s.toList)).get? 1 with
    | none => rw [hget] at hsome; simp at hsome
    | some t =>
      rw [hget] at hsome
      have hh : String.mk t = h := by simpa using hsome
      subst hh
      intro hstar
      have hts : ('*' : Char) ∈ t := hstar
      have hcl : ('*' : Char) ∈ rstrip s.toList :=
        mem_pySplit_subset (List.get?_mem hget) hts
      have hcontains : (rstrip s.toList).contains '*' = true := by
        simpa [List.contains] using hcl
      have : skipLine (rstrip s.toList) = true := by
        unfold skipLine
        rw [hcontains]
        simp
      exact hsk this

theorem loadHosts_sorted (lines : List String) : List.Sorted pyLeP (loadHosts lines) :=
  List.sorted_insertionSort pyLeP (parseHosts lines)

theorem loadHosts_ne_nil {lines : List String} {s : String}
    (hs : s ∈ lines) (hg : goodLine s = true) : loadHosts lines ≠ [] := by
  intro hnil
  have hm := secondToken_mem_loadHosts hs hg
  rw [hnil] at hm
  exact absurd hm (List.not_mem_nil _)

theorem navStep_bounds (hosts : List String) (idx : Int) (k : NavKey)
    (hne : hosts ≠ []) (h0 : 0 ≤ idx) (h1 : idx < (hosts.length : Int)) :
    0 ≤ navStep hosts idx k ∧ navStep hosts idx k < (hosts.length : Int) := by
  have hlen : 0 < hosts.length := List.length_pos.mpr hne
  cases k <;> simp only [navStep] <;> (try split) <;> omega

/-! The claims. -/

/-- Claim C1 (code bug): the spec requires a reload that shrinks the list
below the selection index to re-clamp `SelectionIndex` to `m - 1`, but the
`R` branch of `input_loop` only calls `load_ssh_hosts`. Evaluated at
`hosts = ["alpha", "beta"]`, `active_choice = 1`, with the file now holding
only `Host alpha`: the index stays 1, out of bounds for the 1-element list,
and the `self.hosts[self.active_choice]` lookup a connect would perform has
no value (Python would raise `IndexError`). -/
theorem reload_leaves_index_out_of_bounds :
    reload_step ⟨["alpha", "beta"], 1⟩ (some ["Host alpha"]) = (⟨["alpha"], 1⟩, none)
    ∧ ¬ ((reload_step ⟨["alpha", "beta"], 1⟩ (some ["Host alpha"])).1.active_choice
        < ((reload_step ⟨["alpha", "beta"], 1⟩ (some ["Host alpha"])).1.hosts.length : Int))
    ∧ (reload_step ⟨["alpha", "beta"], 1⟩ (some ["Host alpha"])).1.hosts.get?
        (reload_step ⟨["alpha", "beta"], 1⟩ (some ["Host alpha"])).1.active_choice.toNat
      = none := by
  decide

/-- Claim C2, counterexample: a reload (the `R` branch) whose parse yields
zero usable entries raises nothing and silently leaves an empty host list,
contradicting "every call to the config loader fails with a ConfigError
... never silently returns or leaves in place an empty HostList". -/
theorem reload_empty_parse_is_silent :
    reload_step ⟨["old"], 0⟩ (some ["# nothing here"]) = (⟨[], 0⟩, none) := by
  decide

/-- Claim C2, amended: only the startup path (`__init__`) raises
`SSHConfigError` on a missing path or an empty parse; the reload path
(`load_ssh_hosts` alone) performs neither check — an empty parse silently
installs an empty list, and a missing path raises the underlying `OSError`,
not a ConfigError. -/
theorem config_error_only_at_startup (lines prev : List String)
    (hempty : loadHosts lines = []) :
    issh_init none = .error .sshConfigError
    ∧ issh_init (some lines) = .error .sshConfigError
    ∧ load_ssh_hosts prev (some lines) = ([], none)
    ∧ load_ssh_hosts prev none = ([], some .osError) := by
  refine ⟨rfl, ?_, ?_, rfl⟩
  · have hred : issh_init (some lines)
        = if (loadHosts lines).isEmpty then Except.error .sshConfigError
          else Except.ok ⟨loadHosts lines, 0⟩ := rfl
    rw [hred, hempty]
    rfl
  · have hred : load_ssh_hosts prev (some lines) = (loadHosts lines, none) := rfl
    rw [hred, hempty]

theorem config_error_only_at_startup_witness :
    loadHosts ["# c"] = []
    ∧ (issh_init none = .error .sshConfigError
      ∧ issh_init (some ["# c"]) = .error .sshConfigError
      ∧ load_ssh_hosts ["old"] (some ["# c"]) = ([], none)
      ∧ load_ssh_hosts ["old"] none = ([], some .osError)) :=
  ⟨by decide, config_error_only_at_startup ["# c"] ["old"] (by decide)⟩

/-- Claim C3, counterexample: `load_ssh_hosts` clears `self.hosts` on its
first line, before opening the file, so a failed open does not leave the
previous host list (`["oldhost"]`) untouched — it leaves the empty list. -/
theorem failed_load_clears_previous_hosts :
    (load_ssh_hosts ["oldhost"] none).1 = []
    ∧ (load_ssh_hosts ["oldhost"] none).1 ≠ ["oldhost"] := by
  decide

/-- Claim C3, amended: when the open fails, the host list has already been
reset to the empty list (line 42 precedes the `open`), whatever it held
before; the previous list is lost, and the exception propagates. -/
theorem load_failure_leaves_empty_list (prev : List String) :
    load_ssh_hosts prev none = ([], some .osError) :=
  rfl

/-- Claim C4: on the five example lines, the loader returns exactly
`["bastion", "web1"]`, sorted. -/
theorem loadHosts_five_line_example :
    loadHosts ["Host bastion", "  HostName 10.0.0.1", "Host *.internal",
      "# comment", "Host web1"] = ["bastion", "web1"] := by
  decide

/-- Claim C5: any config with at least one non-blank, non-indented,
non-comment, star-free line of at least two tokens loads to a non-empty
list, sorted under the code-point lexicographic order, with no entry
containing `*`. -/
theorem loadHosts_nonempty_sorted_no_star (lines : List String) (s : String)
    (hs : s ∈ lines) (hg : goodLine s = true) :
    loadHosts lines ≠ []
    ∧ List.Sorted pyLeP (loadHosts lines)
    ∧ ∀ h ∈ loadHosts lines, ('*' : Char) ∉ h.toList :=
  ⟨loadHosts_ne_nil hs hg, loadHosts_sorted lines,
    fun _ hm => no_star_of_mem_loadHosts hm⟩

theorem loadHosts_nonempty_sorted_no_star_witness :
    ("Host web1" ∈ ["Host web1", "Host alpha"] ∧ goodLine "Host web1" = true)
    ∧ (loadHosts ["Host web1", "Host alpha"] ≠ []
      ∧ List.Sorted pyLeP (loadHosts ["Host web1", "Host alpha"])
      ∧ ∀ h ∈ loadHosts ["Host web1", "Host alpha"], ('*' : Char) ∉ h.toList) :=
  ⟨⟨by decide, by decide⟩,
    loadHosts_nonempty_sorted_no_star ["Host web1", "Host alpha"] "Host web1"
      (by decide) (by decide)⟩

/-- Claim C6: starting from any in-bounds index on a non-empty list, every
finite sequence of navigation actions keeps the index in
`[0, len(hosts) - 1]` (so in particular it is in bounds after each action,
every prefix of a sequence being itself a sequence); moreover `g` always
yields 0 and `G` always yields `len(hosts) - 1`. -/
theorem navigation_invariant (hosts : List String) (idx : Int) (ks : List NavKey)
    (hne : hosts ≠ []) (h0 : 0 ≤ idx) (h1 : idx < (hosts.length : Int)) :
    (0 ≤ navRun hosts idx ks ∧ navRun hosts idx ks < (hosts.length : Int))
    ∧ navStep hosts idx NavKey.top = 0
    ∧ navStep hosts idx NavKey.bottom = (hosts.length : Int) - 1 := by
  refine ⟨?_, rfl, rfl⟩
  induction ks generalizing idx with
  | nil => exact ⟨h0, h1⟩
  | cons k ks ih =>
    have hstep := navStep_bounds hosts idx k hne h0 h1
    simpa only [navRun, List.foldl_cons] using ih (navStep hosts idx k) hstep.1 hstep.2

theorem navigation_invariant_witness :
    (0 ≤ navRun ["a", "b", "c", "d", "e"] 0 [NavKey.bottom, NavKey.up]
      ∧ navRun ["a", "b", "c", "d", "e"] 0 [NavKey.bottom, NavKey.up]
        < ((["a", "b", "c", "d", "e"] : List String).length : Int))
    ∧ navStep ["a", "b", "c", "d", "e"] 0 NavKey.top = 0
    ∧ navStep ["a", "b", "c", "d", "e"] 0 NavKey.bottom
      = ((["a", "b", "c", "d", "e"] : List String).length : Int) - 1 :=
  navigation_invariant ["a", "b", "c", "d", "e"] 0 [NavKey.bottom, NavKey.up]
    (by decide) (by decide) (by decide)

/-- Claim C7, counterexample: `launch_editor` does not perform the
release/reacquire hand-off the claim describes — its effect sequence
contains neither `cleanup_curses` nor `reinit_curses`, unlike
`connect_to_host`, which brackets the subprocess with both. -/
theorem launch_editor_has_no_handoff :
    Event.cleanupCurses ∉ launch_editor_trace ["vi"] "/root/.ssh/config"
    ∧ Event.reinitCurses ∉ launch_editor_trace ["vi"] "/root/.ssh/config"
    ∧ connect_to_host_trace "web1"
      = [Event.cleanupCurses, Event.runProcess ["ssh", "web1"], Event.reinitCurses] := by
  decide

/-- Claim C7, amended: the edit action synchronously runs the resolved
editor on the config path and then reloads the host list, but performs no
terminal release/reacquire at all; the symmetric hand-off (release before
the subprocess, reacquire after it) is performed only by the connect
action. -/
theorem edit_runs_editor_then_reloads_without_handoff
    (editorCmd : List String) (configPath : String) (host : String) :
    launch_editor_trace editorCmd configPath
      = [Event.runProcess (editorCmd ++ [configPath]), Event.reloadHosts]
    ∧ Event.cleanupCurses ∉ launch_editor_trace editorCmd configPath
    ∧ Event.reinitCurses ∉ launch_editor_trace editorCmd configPath
    ∧ connect_to_host_trace host
      = [Event.cleanupCurses, Event.runProcess ["ssh", host], Event.reinitCurses] := by
  refine ⟨rfl, ?_, ?_, rfl⟩ <;> simp [launch_editor_trace]

/-- Claim C8, counterexample: a subprocess that cannot be launched at all
(`FileNotFoundError` from `subprocess.run`) is not tolerated — neither
`connect_to_host` nor `launch_editor` catches it, so the controller raises
instead of returning to the menu. -/
theorem launch_failure_raises :
    connect_to_host RunOutcome.launchFailure = Except.error PyError.osError
    ∧ launch_editor RunOutcome.launchFailure ["Host web1"]
      = Except.error PyError.osError :=
  ⟨rfl, rfl⟩

/-- Claim C8, amended: a child process that starts and then exits with any
status — zero, non-zero, or killed by a signal — raises nothing
(`subprocess.run` without `check=True`), and control returns to the menu
loop; but a child that cannot be launched at all raises an uncaught
`OSError` that terminates the session. -/
theorem child_exit_status_tolerated (code : Int) (sig : Nat) (lines : List String) :
    connect_to_host (RunOutcome.exited code) = Except.ok ()
    ∧ connect_to_host (RunOutcome.signaled sig) = Except.ok ()
    ∧ launch_editor (RunOutcome.exited code) lines = Except.ok (loadHosts lines)
    ∧ launch_editor (RunOutcome.signaled sig) lines = Except.ok (loadHosts lines)
    ∧ connect_to_host RunOutcome.launchFailure = Except.error PyError.osError
    ∧ launch_editor RunOutcome.launchFailure lines = Except.error PyError.osError :=
  ⟨rfl, rfl, rfl, rfl, rfl, rfl⟩

/-- Claim C9, counterexample: `g` and `G` are not case-insensitive — the
dispatch chain compares them with `==` on the raw character, and the two
cases perform different actions (first item vs last item). Key codes 103
and 71 are `ord('g')` and `ord('G')`. -/
theorem g_and_G_dispatch_differently :
    dispatch 103 = Action.moveTop
    ∧ dispatch 71 = Action.moveLast
    ∧ Action.moveTop ≠ Action.moveLast := by
  decide

/-- Claim C9, amended: the letter commands j, k, l, q, e, r, h are
case-insensitive (each pair of key codes below is a lower/upper pair
dispatching to the same action), while g (103) and G (71) are
case-sensitive and bound to two distinct actions: g jumps to the first
item, G to the last. -/
theorem letter_key_case_sensitivity :
    (dispatch 106 = Action.selectNext ∧ dispatch 74 = Action.selectNext)
    ∧ (dispatch 107 = Action.selectPrev ∧ dispatch 75 = Action.selectPrev)
    ∧ (dispatch 108 = Action.connect ∧ dispatch 76 = Action.connect)
    ∧ (dispatch 113 = Action.quit ∧ dispatch 81 = Action.quit)
    ∧ (dispatch 101 = Action.edit ∧ dispatch 69 = Action.edit)
    ∧ (dispatch 114 = Action.reload ∧ dispatch 82 = Action.reload)
    ∧ (dispatch 104 = Action.help ∧ dispatch 72 = Action.help)
    ∧ dispatch 103 = Action.moveTop
    ∧ dispatch 71 = Action.moveLast := by
  decide

/-- Claim C10: the loader takes the second whitespace-delimited token of
every surviving top-level line without checking that the first token is
the keyword `Host`; any such line's second token lands in the host list. -/
theorem second_token_kept_without_keyword_check (lines : List String) (s : String)
    (hs : s ∈ lines) (hg : goodLine s = true) :
    secondToken s ∈ loadHosts lines :=
  secondToken_mem_loadHosts hs hg

theorem second_token_kept_without_keyword_check_witness :
    secondToken "User root" = "root"
    ∧ loadHosts ["User root"] = ["root"]
    ∧ secondToken "User root" ∈ loadHosts ["User root"] :=
  ⟨by decide, by decide,
    second_token_kept_without_keyword_check ["User root"] "User root"
      (by decide) (by decide)⟩

end Issh
